import Mathlib

/-!
Verification of the dev-mode process supervisor (`dev_startup.sh`) and the
managed Bun server (`index.ts`).

The script runs under `set -euo pipefail`.  The embedding therefore models,
for each command of interest, both its stdout and its exit status, and the
watcher tick is a function that can end in the watcher subshell terminating
(errexit on a failing simple command or on an assignment whose command
substitution carries a failing pipeline status under pipefail).

The external `sha256sum` tool is modelled by a full executable SHA-256 over
byte lists.  The round and initial-hash constants are derived from first
principles (fractional parts of cube/square roots of the first primes) and
the implementation is validated below against the well-known digest of the
empty input.
-/

set_option maxRecDepth 4000

namespace DevStartup

/-! ### SHA-256 over byte lists (model of the external sha256sum tool) -/

/-- Truncation to a 32-bit word. -/
def w32 (n : Nat) : Nat := n % 4294967296

/-- 32-bit right rotation. -/
def rotr (n x : Nat) : Nat := w32 ((x >>> n) ||| (x <<< (32 - n)))

/-- Bisection step for the integer cube root, driven by explicit fuel so the
definition stays structurally recursive and kernel-reducible. -/
def icbrtGo : Nat → Nat → Nat → Nat → Nat
  | 0, _, lo, _ => lo
  | fuel + 1, n, lo, hi =>
    let mid := (lo + hi) / 2
    if mid = lo then lo
    else if mid ^ 3 ≤ n then icbrtGo fuel n mid hi
    else icbrtGo fuel n lo mid

/-- Integer cube root. -/
def icbrt (n : Nat) : Nat := icbrtGo 200 n 0 (n + 1)

/-- Bisection step for the integer square root (fuel-based, kernel-reducible). -/
def isqrtGo : Nat → Nat → Nat → Nat → Nat
  | 0, _, lo, _ => lo
  | fuel + 1, n, lo, hi =>
    let mid := (lo + hi) / 2
    if mid = lo then lo
    else if mid ^ 2 ≤ n then isqrtGo fuel n mid hi
    else isqrtGo fuel n lo mid

/-- Integer square root. -/
def isqrt (n : Nat) : Nat := isqrtGo 200 n 0 (n + 1)

/-- The first 64 primes, whose cube roots yield the SHA-256 round constants. -/
def primes64 : List Nat :=
  [2, 3, 5, 7, 11, 13, 17, 19, 23, 29, 31, 37, 41, 43, 47, 53,
   59, 61, 67, 71, 73, 79, 83, 89, 97, 101, 103, 107, 109, 113, 127, 131,
   137, 139, 149, 151, 157, 163, 167, 173, 179, 181, 191, 193, 197, 199, 211, 223,
   227, 229, 233, 239, 241, 251, 257, 263, 269, 271, 277, 281, 283, 293, 307, 311]

/-- SHA-256 round constants: first 32 bits of the fractional parts of the cube
roots of the first 64 primes. -/
def roundK : List Nat := primes64.map (fun p => w32 (icbrt (p * 2 ^ 96)))

/-- SHA-256 initial hash words: first 32 bits of the fractional parts of the
square roots of the first 8 primes. -/
def initH : List Nat :=
  [2, 3, 5, 7, 11, 13, 17, 19].map (fun p => w32 (isqrt (p * 2 ^ 64)))

def ch (x y z : Nat) : Nat := (x &&& y) ^^^ ((4294967295 - x) &&& z)

def maj (x y z : Nat) : Nat := (x &&& y) ^^^ (x &&& z) ^^^ (y &&& z)

def bsig0 (x : Nat) : Nat := rotr 2 x ^^^ rotr 13 x ^^^ rotr 22 x

def bsig1 (x : Nat) : Nat := rotr 6 x ^^^ rotr 11 x ^^^ rotr 25 x

def ssig0 (x : Nat) : Nat := rotr 7 x ^^^ rotr 18 x ^^^ (x >>> 3)

def ssig1 (x : Nat) : Nat := rotr 17 x ^^^ rotr 19 x ^^^ (x >>> 10)

/-- Big-endian 8-byte encoding of the message bit length. -/
def beBytes8 (n : Nat) : List Nat :=
  (List.range 8).map (fun i => (n >>> (8 * (7 - i))) % 256)

/-- SHA-256 padding: append 0x80, zero bytes to 56 mod 64, then the 64-bit
big-endian bit length. -/
def padMsg (msg : List Nat) : List Nat :=
  let L := msg.length
  msg ++ [128] ++ List.replicate ((64 - (L + 9) % 64) % 64) 0 ++ beBytes8 (8 * L)

/-- Split a byte list into 64-byte blocks (fuel-based for kernel reduction). -/
def chunksGo : Nat → List Nat → List (List Nat)
  | 0, _ => []
  | _, [] => []
  | fuel + 1, xs => xs.take 64 :: chunksGo fuel (xs.drop 64)

def chunks64 (xs : List Nat) : List (List Nat) := chunksGo (xs.length + 1) xs

/-- Big-endian 32-bit word at position `i` of a block. -/
def beWord (block : List Nat) (i : Nat) : Nat :=
  block.getD (4 * i) 0 * 16777216 + block.getD (4 * i + 1) 0 * 65536 +
    block.getD (4 * i + 2) 0 * 256 + block.getD (4 * i + 3) 0

/-- Extend the 16-word schedule to 64 words. -/
def extendW : Nat → List Nat → List Nat
  | 0, w => w
  | n + 1, w =>
    let t := w.length
    extendW n (w ++ [w32 (ssig1 (w.getD (t - 2) 0) + w.getD (t - 7) 0 +
      ssig0 (w.getD (t - 15) 0) + w.getD (t - 16) 0)])

/-- Message schedule of a 64-byte block. -/
def schedW (block : List Nat) : List Nat :=
  extendW 48 ((List.range 16).map (beWord block))

/-- Working state of the compression function. -/
structure Hash8 where
  a : Nat
  b : Nat
  c : Nat
  d : Nat
  e : Nat
  f : Nat
  g : Nat
  h : Nat
deriving DecidableEq

/-- One SHA-256 round. -/
def round (st : Hash8) (kw : Nat × Nat) : Hash8 :=
  let t1 := st.h + bsig1 st.e + ch st.e st.f st.g + kw.1 + kw.2
  let t2 := bsig0 st.a + maj st.a st.b st.c
  ⟨w32 (t1 + t2), st.a, st.b, st.c, w32 (st.d + t1), st.e, st.f, st.g⟩

/-- Pointwise 32-bit addition of hash states. -/
def addH8 (x y : Hash8) : Hash8 :=
  ⟨w32 (x.a + y.a), w32 (x.b + y.b), w32 (x.c + y.c), w32 (x.d + y.d),
   w32 (x.e + y.e), w32 (x.f + y.f), w32 (x.g + y.g), w32 (x.h + y.h)⟩

/-- Compression of one 64-byte block into the running hash. -/
def compress (hs : Hash8) (block : List Nat) : Hash8 :=
  addH8 hs ((roundK.zip (schedW block)).foldl round hs)

def hash8Init : Hash8 :=
  ⟨initH.getD 0 0, initH.getD 1 0, initH.getD 2 0, initH.getD 3 0,
   initH.getD 4 0, initH.getD 5 0, initH.getD 6 0, initH.getD 7 0⟩

/-- Big-endian bytes of one 32-bit word. -/
def wordBytes (n : Nat) : List Nat :=
  [n >>> 24 % 256, n >>> 16 % 256, n >>> 8 % 256, n % 256]

/-- Big-endian bytes of a hash state. -/
def h8bytes (hs : Hash8) : List Nat :=
  wordBytes hs.a ++ wordBytes hs.b ++ wordBytes hs.c ++ wordBytes hs.d ++
    wordBytes hs.e ++ wordBytes hs.f ++ wordBytes hs.g ++ wordBytes hs.h

/-- SHA-256 of a byte list, as 32 bytes. -/
def sha256 (msg : List Nat) : List Nat :=
  h8bytes ((chunks64 (padMsg msg)).foldl compress hash8Init)

/-- Lowercase hexadecimal digit. -/
def hexDigit (n : Nat) : Char :=
  if n < 10 then Char.ofNat (48 + n) else Char.ofNat (87 + n)

/-- Lowercase hex string of a byte list. -/
def hexStr (bytes : List Nat) : String :=
  String.mk (bytes.flatMap (fun b => [hexDigit (b / 16 % 16), hexDigit (b % 16)]))

/-- The lowercase hexadecimal SHA-256 digest printed by sha256sum. -/
def digest (msg : List Nat) : String := hexStr (sha256 msg)

/-! The validation of the SHA-256 implementation against the well-known digest
of the empty input is staged through literal intermediate values so that each
kernel reduction stays shallow. -/

/-- The single padded block of the empty message. -/
def emptyBlock : List Nat := 128 :: List.replicate 63 0

theorem padMsg_nil : padMsg [] = emptyBlock := by decide

theorem chunks64_emptyBlock : chunks64 emptyBlock = [emptyBlock] := by decide

theorem hash8Init_eq :
    hash8Init = ⟨1779033703, 3144134277, 1013904242, 2773480762,
                 1359893119, 2600822924, 528734635, 1541459225⟩ := by decide

/-- Round constants paired with schedule words of the empty block, rounds 1-16. -/
def kwEmpty1 : List (Nat × Nat) :=
  [(1116352408, 2147483648), (1899447441, 0), (3049323471, 0), (3921009573, 0),
   (961987163, 0), (1508970993, 0), (2453635748, 0), (2870763221, 0),
   (3624381080, 0), (310598401, 0), (607225278, 0), (1426881987, 0),
   (1925078388, 0), (2162078206, 0), (2614888103, 0), (3248222580, 0)]

/-- Rounds 17-32. -/
def kwEmpty2 : List (Nat × Nat) :=
  [(3835390401, 2147483648), (4022224774, 0), (264347078, 2117632), (604807628, 0),
   (770255983, 570427392), (1249150122, 0), (1555081692, 84448578), (1996064986, 2147483648),
   (2554220882, 1476919296), (2821834349, 4235264), (2952996808, 1451269), (3210313671, 1711282176),
   (3336571891, 3592562048), (3584528711, 337794312), (113926993, 3594910044), (338241895, 3374850048)]

/-- Rounds 33-48. -/
def kwEmpty3 : List (Nat × Nat) :=
  [(666307205, 3287351444), (773529912, 676112230), (1294757372, 109604294), (1396182291, 2742808854),
   (1695183700, 1904000662), (1986661051, 4274181962), (2177026350, 2813755136), (2456956037, 2165675682),
   (2730485921, 2561075048), (2820302411, 62000258), (3259730800, 1562224585), (3345764771, 2975250741),
   (3516065817, 3286092305), (3600352804, 614207615), (4094571909, 3297584367), (275423344, 1575308336)]

/-- Rounds 49-64. -/
def kwEmpty4 : List (Nat × Nat) :=
  [(430227734, 3741240933), (506948616, 748767245), (659060556, 1008022316), (883997877, 30329261),
   (958139571, 369937616), (1322822218, 195877528), (1537002063, 907775968), (1747873779, 3526495142),
   (1955562222, 43741191), (2024104815, 1967544444), (2227730452, 133517113), (2361852424, 4161330627),
   (2428436474, 3704256008), (2756734187, 1581412744), (3204031479, 1153231965), (3329325298, 996066459)]

theorem kw_empty_split :
    roundK.zip (schedW emptyBlock) = kwEmpty1 ++ (kwEmpty2 ++ (kwEmpty3 ++ kwEmpty4)) := by
  decide

theorem rounds16 :
    kwEmpty1.foldl round ⟨1779033703, 3144134277, 1013904242, 2773480762,
                          1359893119, 2600822924, 528734635, 1541459225⟩ =
      ⟨3019933109, 3096116699, 1170215847, 553833165,
       1555621987, 483372089, 725774998, 3455974994⟩ := by decide

theorem rounds32 :
    kwEmpty2.foldl round ⟨3019933109, 3096116699, 1170215847, 553833165,
                          1555621987, 483372089, 725774998, 3455974994⟩ =
      ⟨300352095, 2696613087, 1926471693, 1690082844,
       3151463532, 1447716390, 2957685293, 2506713973⟩ := by decide

theorem rounds48 :
    kwEmpty3.foldl round ⟨300352095, 2696613087, 1926471693, 1690082844,
                          3151463532, 1447716390, 2957685293, 2506713973⟩ =
      ⟨911881421, 1419259244, 855262251, 2752082644,
       3417569515, 2322236082, 3531982457, 2855016464⟩ := by decide

theorem rounds64 :
    kwEmpty4.foldl round ⟨911881421, 1419259244, 855262251, 2752082644,
                          3417569515, 2322236082, 3531982457, 2855016464⟩ =
      ⟨2040978907, 3717492111, 1586299222, 4095722474,
       3600805733, 3382061760, 2232532848, 477227836⟩ := by decide

theorem compress_emptyBlock :
    compress hash8Init emptyBlock =
      ⟨3820012610, 2566659092, 2600203464, 2574235940,
       665731556, 1687917388, 2761267483, 2018687061⟩ := by
  unfold compress
  rw [kw_empty_split, hash8Init_eq, List.foldl_append, List.foldl_append,
    List.foldl_append, rounds16, rounds32, rounds48, rounds64]
  decide

theorem sha256_nil :
    sha256 [] = [227, 176, 196, 66, 152, 252, 28, 20, 154, 251, 244, 200, 153, 111, 185, 36,
                 39, 174, 65, 228, 100, 155, 147, 76, 164, 149, 153, 27, 120, 82, 184, 85] := by
  unfold sha256
  rw [padMsg_nil, chunks64_emptyBlock]
  rw [show [emptyBlock].foldl compress hash8Init = compress hash8Init emptyBlock from rfl]
  rw [compress_emptyBlock]
  decide

/-- The implementation, with its constants derived from the primes, reproduces
the well-known SHA-256 digest of the empty input.  This is exactly the value
`sha256sum` prints for an empty stream. -/
theorem digest_empty :
    digest [] = "e3b0c44298fc1c149afbf4c8996fb92427ae41e4649b934ca495991b7852b855" := by
  unfold digest
  rw [sha256_nil]
  decide

/-- A trailing pairwise flatMap doubles the length. -/
theorem flatMap_pair_length {α β : Type} (g k : α → β) (l : List α) :
    (l.flatMap (fun b => [g b, k b])).length = 2 * l.length := by
  induction l with
  | nil => simp
  | cons x xs ih => simp [List.flatMap_cons, ih]; omega

/-- A SHA-256 digest is always 32 bytes. -/
theorem sha256_length (msg : List Nat) : (sha256 msg).length = 32 := by
  unfold sha256 h8bytes wordBytes
  simp

/-- A hexadecimal SHA-256 digest string is always 64 characters long. -/
theorem digest_length (msg : List Nat) : (digest msg).length = 64 := by
  show ((sha256 msg).flatMap (fun b => [hexDigit (b / 16 % 16), hexDigit (b % 16)])).length = 64
  rw [flatMap_pair_length, sha256_length]

/-- A digest string never coincides with a string of a different length; in
particular it is never empty. -/
theorem digest_ne_of_length (msg : List Nat) (s : String) (h : s.length ≠ 64) :
    digest msg ≠ s := by
  intro he
  exact h (he ▸ digest_length msg)

theorem digest_ne_empty (msg : List Nat) : digest msg ≠ "" := by
  apply digest_ne_of_length
  decide

/-! ### The dependency-fingerprint machinery of dev_startup.sh

The script runs with `set -euo pipefail` (line 46); the watcher is a
background subshell of it and inherits those options. -/

/-- What the script can observe of one file at one instant: absent,
present but unreadable, or readable with some byte content. -/
inductive FileObs
  | absent
  | unreadable
  | readable (content : List Nat)
deriving DecidableEq

/-- A filesystem snapshot: a map from path to observation. -/
def FS : Type := String → FileObs

/-- `WATCH_FILES=("package.json" "bun.lockb")` (lines 89 and 128). -/
def WATCH_FILES : List String := ["package.json", "bun.lockb"]

/-- Stdout bytes and exit status of a shell command. -/
structure CmdOut where
  out : List Nat
  status : Nat
deriving DecidableEq

/-- ASCII bytes of a string (every string fed through the pipeline here is
ASCII, so this agrees with the byte stream the shell sees). -/
def strBytes (s : String) : List Nat := s.data.map Char.toNat

/-- One iteration of the `hash_files` loop body: `[ -f "$f" ] && sha256sum "$f"`
(line 94, and line 134 with stderr dropped).  An absent file fails the `-f`
test (status 1, no output); an unreadable file passes the test but makes
`sha256sum` print nothing on stdout and exit 1; a readable file yields the
line `<digest>  <name>` and status 0. -/
def fileCheck (fs : FS) (f : String) : CmdOut :=
  match fs f with
  | .readable c => ⟨strBytes (digest c) ++ strBytes "  " ++ strBytes f ++ [10], 0⟩
  | .unreadable => ⟨[], 1⟩
  | .absent => ⟨[], 1⟩

/-- `hash_files` (top-level copy lines 92-96, watcher copy lines 131-136; the
two differ only in a `cd` — taken as succeeding here — and in dropping
stderr).  Stdout is the concatenation of the per-file lines; the function's
exit status is that of the last command it executed, i.e. of the check of the
last file of WATCH_FILES. -/
def hash_files (fs : FS) : CmdOut :=
  ⟨(WATCH_FILES.map (fun f => (fileCheck fs f).out)).flatten,
   WATCH_FILES.foldl (fun _ f => (fileCheck fs f).status) 0⟩

/-- Value of `$(hash_files | sha256sum | awk '{ print $1 }')` — written here
without braces: the first field of sha256sum over the concatenated stream,
i.e. the digest of hash_files' stdout. -/
def currentStr (fs : FS) : String := digest (hash_files fs).out

/-- Status of that pipeline: under `set -o pipefail` it is the status of
`hash_files` (sha256sum and awk always succeed on any input stream). -/
def currentStatus (fs : FS) : Nat := (hash_files fs).status

/-- Observable outcome of one watcher tick: the store content afterwards,
whether `bun install` was invoked, whether the `pkill` of the managed Bun
process was issued, and whether the watcher subshell itself terminated. -/
structure TickResult where
  store : Option String
  installed : Bool
  killed : Bool
  died : Bool
deriving DecidableEq

/-- One iteration of the `watch_dependencies` while-loop (lines 150-179),
running under the inherited `set -euo pipefail`:

* `current=$(hash_files | ...)` — if the pipeline's status is nonzero
  (pipefail), the assignment fails and errexit terminates the watcher
  subshell before anything else happens on this tick;
* `previous=$(cat "$HASH_FILE_PATH" 2>/dev/null || echo "")` — the stored
  value, or the empty string when the store file is absent;
* if current and previous differ and current is nonempty, `bun install` runs
  as an unguarded simple command: on success the store is rewritten with
  current and the pkill is issued; on failure errexit terminates the watcher
  subshell before the store write and before the pkill;
* if they differ but current is empty, the tick only logs and continues;
* if they are equal the tick does nothing. -/
def watcherTick (fs : FS) (store : Option String) (installOk : Bool) : TickResult :=
  if currentStatus fs ≠ 0 then
    ⟨store, false, false, true⟩
  else
    if currentStr fs ≠ store.getD "" then
      if currentStr fs ≠ "" then
        if installOk then
          ⟨some (currentStr fs), true, true, false⟩
        else
          ⟨store, true, false, true⟩
      else
        ⟨store, false, false, false⟩
    else
      ⟨store, false, false, false⟩

/-- Line 121: `hash_files | sha256sum | awk ... > "$HASH_FILE" || echo "0" >
"$HASH_FILE"`.  The redirection writes the digest; when the pipeline fails
(pipefail picks up hash_files' status) the fallback overwrites the file with
the literal string 0.  Either way the previous content is gone. -/
def startupHashWrite (fs : FS) ( _st : Option String) : Option String :=
  if currentStatus fs = 0 then some (currentStr fs) else some "0"

/-- Lines 115-121 of the startup sequence: `bun install || touch
"$HASH_FILE"` followed by the unconditional hash write of line 121.  The
touch creates an empty store if none exists (and leaves an existing one in
place); line 121 then overwrites the store in every case, whether or not the
install succeeded. -/
def startupStore (fs : FS) (prev : Option String) (installOk : Bool) : Option String :=
  startupHashWrite fs (if installOk then prev else some (prev.getD ""))

/-! ### Concrete filesystem snapshots used by the claims -/

/-- Every watched file absent. -/
def fsAllAbsent : FS := fun _ => FileObs.absent

/-- package.json present and readable, bun.lockb absent. -/
def fsPkgOnly : FS := fun f =>
  if f = "package.json" then FileObs.readable (strBytes "x") else FileObs.absent

/-- package.json present and readable, bun.lockb present but unreadable. -/
def fsLockUnreadable : FS := fun f =>
  if f = "package.json" then FileObs.readable (strBytes "x") else FileObs.unreadable

/-- Both watched files present and readable. -/
def fsBoth : FS := fun f =>
  if f = "package.json" then FileObs.readable (strBytes "a")
  else FileObs.readable (strBytes "b")

/-- Only bun.lockb present (readable, empty).  Because bun.lockb is the last
entry of WATCH_FILES, hash_files exits 0 on this snapshot. -/
def fsLockOnly : FS := fun f =>
  if f = "bun.lockb" then FileObs.readable [] else FileObs.absent

theorem hash_files_allAbsent_out : (hash_files fsAllAbsent).out = [] := by decide

/-- With every watched file absent, the computed fingerprint is the digest of
the empty stream — the canonical constant — and in particular nonempty. -/
theorem currentStr_allAbsent :
    currentStr fsAllAbsent =
      "e3b0c44298fc1c149afbf4c8996fb92427ae41e4649b934ca495991b7852b855" := by
  show digest (hash_files fsAllAbsent).out = _
  rw [hash_files_allAbsent_out]
  exact digest_empty

/-- A tick whose fingerprint matches the store exactly is a no-op and the
watcher survives it. -/
theorem watcherTick_self (fs : FS) (ok : Bool) (h : currentStatus fs = 0) :
    watcherTick fs (some (currentStr fs)) ok =
      ⟨some (currentStr fs), false, false, false⟩ := by
  unfold watcherTick
  rw [if_neg (by simp [h])]
  rw [show (some (currentStr fs)).getD "" = currentStr fs from rfl]
  rw [if_neg (fun hne => hne rfl)]

/-! ### The claims about the watcher and the startup sequence -/

/-- C1, counterexample.  The claim says a failed installer invocation never
advances the fingerprint store.  At startup this is false: with package.json
present, bun.lockb absent and `bun install` failing, the store previously
holding the value old is overwritten (here, via the pipefail fallback, with
the string 0). -/
theorem c1_counterexample :
    startupStore fsPkgOnly (some "old") false = some "0" ∧
    (some "0" : Option String) ≠ some "old" := by
  constructor
  · decide
  · decide

/-- C1, amended.  On a watcher tick a failed install indeed never advances the
store (the watcher dies before the write, or never reaches it); but the
startup sequence rewrites the store with the freshly computed value no matter
whether the install succeeded — its final store content is the same function
of the filesystem in both cases. -/
theorem c1_amended (fs : FS) (store prev : Option String) :
    (watcherTick fs store false).store = store ∧
    startupStore fs prev false = startupStore fs prev true := by
  refine ⟨?_, rfl⟩
  unfold watcherTick
  by_cases h1 : currentStatus fs ≠ 0
  · rw [if_pos h1]
  · rw [if_neg h1]
    by_cases h2 : currentStr fs ≠ store.getD ""
    · rw [if_pos h2]
      by_cases h3 : currentStr fs ≠ ""
      · rw [if_pos h3]
        rfl
      · rw [if_neg h3]
    · rw [if_neg h2]

/-- C2, counterexample.  The claim asserts that a filesystem state with every
watched file absent yields an empty fingerprint and that the tick then skips
the install and continues.  In fact the computed fingerprint is the (nonempty)
digest of the empty stream, and the tick does not even reach the comparison:
the hash pipeline's status 1 makes the assignment fail under errexit and the
watcher subshell dies. -/
theorem c2_counterexample :
    currentStr fsAllAbsent ≠ "" ∧
    currentStr fsAllAbsent =
      "e3b0c44298fc1c149afbf4c8996fb92427ae41e4649b934ca495991b7852b855" ∧
    (watcherTick fsAllAbsent (some "x") true).died = true := by
  refine ⟨?_, currentStr_allAbsent, ?_⟩
  · rw [currentStr_allAbsent]
    decide
  · decide

/-- C2, amended.  On a tick where every watched file is absent the watcher
performs no install, no store write and no kill — but because the failing
hash pipeline terminates the watcher subshell under set -e, not because of
the empty-fingerprint guard: the computed fingerprint on such a tick is the
digest of the empty stream, which is nonempty (a digest string never is), so
the guard branch cannot fire on it. -/
theorem c2_amended (store : Option String) (installOk : Bool) :
    watcherTick fsAllAbsent store installOk = ⟨store, false, false, true⟩ ∧
    currentStr fsAllAbsent ≠ "" := by
  constructor
  · unfold watcherTick
    rw [if_pos (by decide)]
  · rw [currentStr_allAbsent]
    decide

/-- C3.  The claim (and the spec) say an installer failure inside the watcher
loop is absorbed and the loop retries on the next tick.  The code contradicts
this: `bun install` on line 169 is an unguarded simple command in a subshell
running under `set -euo pipefail`, so its failure terminates the watcher.  At
a drift tick (both files readable, store holding a stale value old) with a
failing install, the tick invokes the installer, leaves the store unchanged,
issues no kill — and kills the whole watcher loop. -/
theorem c3_code_bug :
    watcherTick fsBoth (some "old") false = ⟨some "old", true, false, true⟩ := by
  unfold watcherTick
  rw [if_neg (by decide)]
  rw [show (some "old").getD "" = "old" from rfl]
  rw [if_pos (show currentStr fsBoth ≠ "old" from digest_ne_of_length _ "old" (by decide))]
  rw [if_pos (show currentStr fsBoth ≠ "" from digest_ne_empty _)]
  rfl

/-- C7.  The claim says the fingerprint computation is total: missing files
are skipped, unreadable files count as absent, and neither condition aborts
the computation or the watcher loop.  The value semantics do hold — an absent
and an unreadable bun.lockb both contribute nothing, and the remaining file
is still hashed — but the aborting part is false: in both snapshots the check
of the last watched file exits 1, pipefail propagates it, and the tick kills
the watcher subshell under set -e even though nothing else went wrong. -/
theorem c7_code_bug :
    fileCheck fsPkgOnly "bun.lockb" = ⟨[], 1⟩ ∧
    fileCheck fsLockUnreadable "bun.lockb" = ⟨[], 1⟩ ∧
    (hash_files fsPkgOnly).out = (fileCheck fsPkgOnly "package.json").out ∧
    (hash_files fsLockUnreadable).out =
      (fileCheck fsLockUnreadable "package.json").out ∧
    (watcherTick fsPkgOnly (some "x") true).died = true ∧
    (watcherTick fsLockUnreadable (some "x") true).died = true := by
  refine ⟨by decide, by decide, ?_, ?_, by decide, by decide⟩
  · show ((WATCH_FILES.map (fun f => (fileCheck fsPkgOnly f).out)).flatten = _)
    show (fileCheck fsPkgOnly "package.json").out ++
      ((fileCheck fsPkgOnly "bun.lockb").out ++ []) = _
    rw [show (fileCheck fsPkgOnly "bun.lockb").out = [] from by decide]
    simp
  · show ((WATCH_FILES.map (fun f => (fileCheck fsLockUnreadable f).out)).flatten = _)
    show (fileCheck fsLockUnreadable "package.json").out ++
      ((fileCheck fsLockUnreadable "bun.lockb").out ++ []) = _
    rw [show (fileCheck fsLockUnreadable "bun.lockb").out = [] from by decide]
    simp

/-- C8, confirmed.  If one watcher tick completes without killing the watcher,
then a second tick over an unchanged filesystem performs no install, no kill,
and leaves the store exactly as the first tick left it: a no-drift tick is a
no-op on both the store and the managed process. -/
theorem c8_idempotent (fs : FS) (store : Option String) (ok1 ok2 : Bool)
    (h : (watcherTick fs store ok1).died = false) :
    watcherTick fs (watcherTick fs store ok1).store ok2 =
      ⟨(watcherTick fs store ok1).store, false, false, false⟩ := by
  by_cases h1 : currentStatus fs ≠ 0
  · exfalso
    unfold watcherTick at h
    rw [if_pos h1] at h
    simp at h
  · by_cases h2 : currentStr fs ≠ store.getD ""
    · by_cases h3 : currentStr fs ≠ ""
      · cases ok1 with
        | false =>
          exfalso
          unfold watcherTick at h
          rw [if_neg h1, if_pos h2, if_pos h3] at h
          simp at h
        | true =>
          have hres : watcherTick fs store true = ⟨some (currentStr fs), true, true, false⟩ := by
            unfold watcherTick
            rw [if_neg h1, if_pos h2, if_pos h3]
            rfl
          rw [hres]
          exact watcherTick_self fs ok2 (by omega)
      · have hres : watcherTick fs store ok1 = ⟨store, false, false, false⟩ := by
          unfold watcherTick
          rw [if_neg h1, if_pos h2, if_neg h3]
        rw [hres]
        unfold watcherTick
        rw [if_neg h1, if_pos h2, if_neg h3]
    · have hres : watcherTick fs store ok1 = ⟨store, false, false, false⟩ := by
        unfold watcherTick
        rw [if_neg h1, if_neg h2]
      rw [hres]
      unfold watcherTick
      rw [if_neg h1, if_neg h2]

/-- C8, witness: a concrete surviving tick (bun.lockb present and readable,
store holding exactly the current fingerprint) followed by a second tick over
the same snapshot. -/
theorem c8_idempotent_witness :
    (watcherTick fsLockOnly (some (currentStr fsLockOnly)) true).died = false ∧
    watcherTick fsLockOnly (watcherTick fsLockOnly (some (currentStr fsLockOnly)) true).store true =
      ⟨(watcherTick fsLockOnly (some (currentStr fsLockOnly)) true).store,
       false, false, false⟩ := by
  have hok : (watcherTick fsLockOnly (some (currentStr fsLockOnly)) true).died = false := by
    rw [watcherTick_self fsLockOnly true (by decide)]
  exact ⟨hok, c8_idempotent fsLockOnly (some (currentStr fsLockOnly)) true true hok⟩

/-! ### The process supervisor main loop, the trap, and signals

Lines 186-207 of the script.  The main loop spawns `bun --hot index.ts &`,
blocks in `wait "$BUN_PID"`, then sleeps 2 and repeats, unconditionally.
`trap cleanup EXIT INT TERM` installs a handler that kills the watcher and
the current child but contains no `exit`; per bash semantics, when a trapped
signal arrives while the script is blocked in the `wait` builtin, `wait`
returns immediately with a status greater than 128 (discarded by `|| true`),
the handler runs, and execution resumes with the next command — the loop
continues and spawns again.  The script contains no `exit` statement after
startup, so the supervisor process never exits by itself. -/

/-- Configuration a server child is spawned with: the fixed command line of
line 198 and the inherited environment (PORT is the part the server reads). -/
structure Config where
  cmd : String
  port : Option String
deriving DecidableEq

/-- Lifecycle status of one spawned child: running; sent TERM (by the trap
handler or the watcher's pkill) but not yet gone; or exited with a code. -/
inductive ChildStatus
  | running
  | signaled
  | exited (code : Nat)
deriving DecidableEq

/-- A child is alive until its exit is final; a TERM in flight does not make
it dead yet (signal delivery is asynchronous and unacknowledged). -/
def ChildStatus.isAlive : ChildStatus → Bool
  | .running => true
  | .signaled => true
  | .exited _ => false

/-- One spawned child: the configuration it was spawned with and its status. -/
structure Child where
  cfg : Config
  status : ChildStatus
deriving DecidableEq

/-- Control point of the main while-loop: about to spawn (top of the loop
body, line 198); blocked in `wait` on child `i` (line 203); or inside
`sleep 2` with `k` units left (line 206). -/
inductive Phase
  | run
  | waiting (i : Nat)
  | sleeping (k : Nat)
deriving DecidableEq

/-- Supervisor state: the fixed spawn configuration, the control point, all
children spawned so far (index = spawn order), whether the watcher subshell
is still alive, whether a termination signal has been handled, and the exit
status of the supervisor process itself (none while it is running). -/
structure MState where
  cfg : Config
  phase : Phase
  children : List Child
  watcherAlive : Bool
  sigSeen : Bool
  exitedWith : Option Nat
deriving DecidableEq

/-- One step of the supervisor's own control flow, a deterministic function:
spawn a child and move to `wait`; leave `wait` only once the awaited child
has actually exited; count the sleep down and loop back to the spawn. -/
def superStep (s : MState) : MState :=
  match s.phase with
  | .run =>
    { s with children := s.children ++ [⟨s.cfg, .running⟩],
             phase := .waiting s.children.length }
  | .waiting i =>
    match s.children[i]? with
    | some c =>
      match c.status with
      | .exited _ => { s with phase := .sleeping 2 }
      | _ => s
    | none => s
  | .sleeping 0 => { s with phase := .run }
  | .sleeping (k + 1) => { s with phase := .sleeping k }

/-- Quiet (signal-free) steps: a supervisor step, or the environment letting
some live child terminate with an arbitrary exit code (crash, clean exit, or
a previously delivered TERM taking effect). -/
inductive StepQ : MState → MState → Prop
  | sup (s : MState) : StepQ s (superStep s)
  | die (s : MState) (i : Nat) (c : Child) (code : Nat)
      (hc : s.children[i]? = some c) (ha : c.status.isAlive = true) :
      StepQ s { s with children := s.children.set i ⟨c.cfg, .exited code⟩ }

/-- Full step relation: quiet steps, plus delivery of SIGINT/SIGTERM while
the supervisor is blocked in `wait`.  The trap handler kills the watcher and
sends TERM to the current child (a kill, not an observed exit); `wait`
returns >128, `|| true` discards the status, and — the handler having no
`exit` — the loop continues into `sleep 2`. -/
inductive Step : MState → MState → Prop
  | quiet (s t : MState) (h : StepQ s t) : Step s t
  | signal (s : MState) (i : Nat) (c : Child)
      (hph : s.phase = .waiting i) (hc : s.children[i]? = some c) :
      Step s { s with
        children := if c.status = ChildStatus.running
                    then s.children.set i ⟨c.cfg, .signaled⟩ else s.children,
        watcherAlive := false, sigSeen := true, phase := .sleeping 2 }

/-- Initial supervisor state, at the top of the first loop iteration. -/
def init (cfg : Config) : MState := ⟨cfg, .run, [], true, false, none⟩

/-- Reachability under the full step relation. -/
inductive Reach (cfg : Config) : MState → Prop
  | base : Reach cfg (init cfg)
  | step (s t : MState) (h : Reach cfg s) (hs : Step s t) : Reach cfg t

/-- Reachability under quiet steps only (no signal ever delivered). -/
inductive ReachQ (cfg : Config) : MState → Prop
  | base : ReachQ cfg (init cfg)
  | step (s t : MState) (h : ReachQ cfg s) (hs : StepQ s t) : ReachQ cfg t

/-- Number of children currently alive. -/
def aliveCount (s : MState) : Nat :=
  (s.children.filter (fun c => c.status.isAlive)).length

/-- Number of children spawned so far. -/
def spawnCount (s : MState) : Nat := s.children.length

/-- The supervisor step never touches the supervisor's own exit status. -/
theorem superStep_exitedWith (s : MState) :
    (superStep s).exitedWith = s.exitedWith := by
  cases hph : s.phase with
  | run => simp [superStep, hph]
  | waiting i =>
    cases hci : s.children[i]? with
    | none => simp [superStep, hph, hci]
    | some c => cases hst : c.status <;> simp [superStep, hph, hci, hst]
  | sleeping k => cases k <;> simp [superStep, hph]

/-- The supervisor step never changes the spawn configuration field. -/
theorem superStep_cfg (s : MState) : (superStep s).cfg = s.cfg := by
  cases hph : s.phase with
  | run => simp [superStep, hph]
  | waiting i =>
    cases hci : s.children[i]? with
    | none => simp [superStep, hph, hci]
    | some c => cases hst : c.status <;> simp [superStep, hph, hci, hst]
  | sleeping k => cases k <;> simp [superStep, hph]

/-- Any child of the post-step state is an old child or a fresh spawn. -/
theorem superStep_children_sub (s : MState) (c : Child)
    (hc : c ∈ (superStep s).children) :
    c ∈ s.children ∨ c = ⟨s.cfg, ChildStatus.running⟩ := by
  cases hph : s.phase with
  | run =>
    simp only [superStep, hph, List.mem_append, List.mem_singleton] at hc
    exact hc
  | waiting i =>
    cases hci : s.children[i]? with
    | none =>
      simp only [superStep, hph, hci] at hc
      exact Or.inl hc
    | some c0 =>
      cases hst : c0.status <;> simp only [superStep, hph, hci, hst] at hc <;> exact Or.inl hc
  | sleeping k =>
    cases k <;> simp only [superStep, hph] at hc <;> exact Or.inl hc

/-- Along any reachable execution the spawn configuration is the fixed one,
and every child ever spawned carries it: spawns are always identical. -/
theorem reach_cfg (cfg : Config) (s : MState) (h : Reach cfg s) :
    s.cfg = cfg ∧ ∀ c ∈ s.children, c.cfg = cfg := by
  induction h with
  | base => exact ⟨rfl, by intro c hc; simp [init] at hc⟩
  | step s t h hs ih =>
    cases hs with
    | quiet t2 hq =>
      cases hq with
      | sup =>
        refine ⟨by rw [superStep_cfg]; exact ih.1, ?_⟩
        intro c hc
        rcases superStep_children_sub s c hc with hold | hnew
        · exact ih.2 c hold
        · rw [hnew]; exact ih.1
      | die i c code hc ha =>
        refine ⟨ih.1, ?_⟩
        intro d hd
        rcases List.mem_or_eq_of_mem_set hd with hold | hnew
        · exact ih.2 d hold
        · rw [hnew]
          exact ih.2 c (List.mem_iff_getElem?.mpr ⟨i, hc⟩)
    | signal i c hph hc =>
      refine ⟨ih.1, ?_⟩
      intro d hd
      by_cases hr : c.status = ChildStatus.running
      · rw [if_pos hr] at hd
        rcases List.mem_or_eq_of_mem_set hd with hold | hnew
        · exact ih.2 d hold
        · rw [hnew]
          exact ih.2 c (List.mem_iff_getElem?.mpr ⟨i, hc⟩)
      · rw [if_neg hr] at hd
        exact ih.2 d hd

/-- The supervisor process never records an exit after startup: no step of
the system — the trap handler included — executes an `exit`. -/
theorem reach_exitedWith (cfg : Config) (s : MState) (h : Reach cfg s) :
    s.exitedWith = none := by
  induction h with
  | base => rfl
  | step s t h hs ih =>
    cases hs with
    | quiet t2 hq =>
      cases hq with
      | sup => rw [superStep_exitedWith]; exact ih
      | die i c code hc ha => exact ih
    | signal i c hph hc => exact ih

/-- In the signal-free system any live child sits exactly at the index the
supervisor is waiting on. -/
theorem reachQ_alive_at_waiting (cfg : Config) (s : MState) (h : ReachQ cfg s) :
    ∀ j c, s.children[j]? = some c → c.status.isAlive = true →
      s.phase = Phase.waiting j := by
  induction h with
  | base => intro j c hj _; simp [init] at hj
  | step s t h hs ih =>
    cases hs with
    | sup =>
      intro j c hj ha
      cases hph : s.phase with
      | run =>
        have hstep : superStep s =
            { s with children := s.children ++ [⟨s.cfg, ChildStatus.running⟩],
                     phase := .waiting s.children.length } := by
          simp [superStep, hph]
        rw [hstep] at hj ⊢
        simp only at hj ⊢
        rcases Nat.lt_trichotomy j s.children.length with hlt | heq | hgt
        · rw [List.getElem?_append_left hlt] at hj
          have hw := ih j c hj ha
          rw [hph] at hw
          exact absurd hw (by simp)
        · rw [heq]
        · exfalso
          have hnone : (s.children ++ [(⟨s.cfg, ChildStatus.running⟩ : Child)])[j]? = none := by
            apply List.getElem?_eq_none
            simp
            omega
          rw [hnone] at hj
          exact Option.noConfusion hj
      | waiting i =>
        cases hci : s.children[i]? with
        | none =>
          have hstep : superStep s = s := by simp [superStep, hph, hci]
          rw [hstep] at hj ⊢
          exact ih j c hj ha
        | some c0 =>
          cases hst : c0.status with
          | running =>
            have hstep : superStep s = s := by simp [superStep, hph, hci, hst]
            rw [hstep] at hj ⊢
            exact ih j c hj ha
          | signaled =>
            have hstep : superStep s = s := by simp [superStep, hph, hci, hst]
            rw [hstep] at hj ⊢
            exact ih j c hj ha
          | exited code =>
            have hstep : superStep s = { s with phase := .sleeping 2 } := by
              simp [superStep, hph, hci, hst]
            rw [hstep] at hj ⊢
            simp only at hj ⊢
            exfalso
            have hw := ih j c hj ha
            rw [hph] at hw
            injection hw with hij
            subst hij
            rw [hci] at hj
            injection hj with hcc
            rw [← hcc, hst] at ha
            simp [ChildStatus.isAlive] at ha
      | sleeping k =>
        cases k with
        | zero =>
          have hstep : superStep s = { s with phase := .run } := by
            simp [superStep, hph]
          rw [hstep] at hj ⊢
          simp only at hj ⊢
          exfalso
          have hw := ih j c hj ha
          rw [hph] at hw
          exact absurd hw (by simp)
        | succ m =>
          have hstep : superStep s = { s with phase := .sleeping m } := by
            simp [superStep, hph]
          rw [hstep] at hj ⊢
          simp only at hj ⊢
          exfalso
          have hw := ih j c hj ha
          rw [hph] at hw
          exact absurd hw (by simp)
    | die i c code hc ha2 =>
      intro j d hj hd
      simp only at hj ⊢
      by_cases hij : i = j
      · exfalso
        subst hij
        have hlt : i < s.children.length := (List.getElem?_eq_some_iff.mp hc).1
        rw [List.getElem?_set_eq_of_lt _ hlt] at hj
        injection hj with hjd
        rw [← hjd] at hd
        simp [ChildStatus.isAlive] at hd
      · rw [List.getElem?_set_ne hij] at hj
        exact ih j d hj hd

/-- If every element satisfying a predicate sits at one single index, the
filtered list has at most one element. -/
theorem filter_length_le_one {α : Type} (p : α → Bool) (l : List α) (i : Nat)
    (h : ∀ j a, l[j]? = some a → p a = true → j = i) :
    (l.filter p).length ≤ 1 := by
  induction l generalizing i with
  | nil => simp
  | cons x xs ih =>
    cases hp : p x with
    | true =>
      have hnone : ∀ a ∈ xs, ¬ p a = true := by
        intro a hamem hpa
        obtain ⟨j, hj⟩ := List.mem_iff_getElem?.mp hamem
        have h0 : (0 : Nat) = i := h 0 x (by simp) hp
        have := h (j + 1) a (by simpa using hj) hpa
        omega
      have hnil : xs.filter p = [] := List.filter_eq_nil_iff.mpr hnone
      simp [List.filter_cons, hp, hnil]
    | false =>
      cases i with
      | zero =>
        have hnone : ∀ a ∈ xs, ¬ p a = true := by
          intro a hamem hpa
          obtain ⟨j, hj⟩ := List.mem_iff_getElem?.mp hamem
          have := h (j + 1) a (by simpa using hj) hpa
          omega
        have hnil : xs.filter p = [] := List.filter_eq_nil_iff.mpr hnone
        simp [List.filter_cons, hp, hnil]
      | succ k =>
        have hk := ih k (fun j a hj hpa => by
          have := h (j + 1) a (by simpa using hj) hpa
          omega)
        simpa [List.filter_cons, hp] using hk

/-! ### The claims about the supervisor loop and shutdown -/

/-- The concrete spawn configuration of line 198 (PORT left unset). -/
def cfg0 : Config := ⟨"bun --hot index.ts", none⟩

/-- C5, amended.  As long as no termination signal is delivered, at most one
server child is alive in every reachable state: the loop spawns only after
the previous child's exit has been observed by `wait` and the sleep has run
down.  (After a trapped signal this can fail: see the counterexample.) -/
theorem c5_amended (cfg : Config) (s : MState) (h : ReachQ cfg s) :
    aliveCount s ≤ 1 := by
  unfold aliveCount
  cases hph : s.phase with
  | waiting i =>
    apply filter_length_le_one _ _ i
    intro j a hj hpa
    have hw := reachQ_alive_at_waiting cfg s h j a hj hpa
    rw [hph] at hw
    injection hw with hij
    omega
  | run =>
    apply filter_length_le_one _ _ 0
    intro j a hj hpa
    have hw := reachQ_alive_at_waiting cfg s h j a hj hpa
    rw [hph] at hw
    exact absurd hw (by simp)
  | sleeping k =>
    apply filter_length_le_one _ _ 0
    intro j a hj hpa
    have hw := reachQ_alive_at_waiting cfg s h j a hj hpa
    rw [hph] at hw
    exact absurd hw (by simp)

/-- C5, witness for the amended theorem: the state right after the first
spawn is quietly reachable and satisfies the bound. -/
theorem c5_amended_witness :
    ReachQ cfg0 ⟨cfg0, .waiting 0, [⟨cfg0, .running⟩], true, false, none⟩ ∧
    aliveCount ⟨cfg0, .waiting 0, [⟨cfg0, .running⟩], true, false, none⟩ ≤ 1 := by
  have h1 : ReachQ cfg0 ⟨cfg0, .waiting 0, [⟨cfg0, .running⟩], true, false, none⟩ :=
    ReachQ.step _ _ ReachQ.base (StepQ.sup _)
  exact ⟨h1, c5_amended cfg0 _ h1⟩

/-- A reachable state in which two children are alive at once. -/
def sOverlap : MState :=
  ⟨cfg0, .waiting 1, [⟨cfg0, .signaled⟩, ⟨cfg0, .running⟩], false, true, none⟩

/-- C5, counterexample.  The claim promises at most one alive server process
in every reachable state.  After a SIGTERM delivered during `wait`, the trap
kills the child (TERM in flight, delivery asynchronous), `wait` returns >128
without having observed an exit, and the loop — the handler has no `exit` —
sleeps 2 and spawns a fresh child while the signalled one may still be
dying: a reachable state holds two alive children. -/
theorem c5_counterexample : Reach cfg0 sOverlap ∧ aliveCount sOverlap = 2 := by
  constructor
  · have h1 : Reach cfg0 ⟨cfg0, .waiting 0, [⟨cfg0, .running⟩], true, false, none⟩ :=
      Reach.step _ _ Reach.base (Step.quiet _ _ (StepQ.sup _))
    have h2 : Reach cfg0 ⟨cfg0, .sleeping 2, [⟨cfg0, .signaled⟩], false, true, none⟩ :=
      Reach.step _ _ h1 (Step.signal _ 0 ⟨cfg0, .running⟩ rfl rfl)
    have h3 : Reach cfg0 ⟨cfg0, .sleeping 1, [⟨cfg0, .signaled⟩], false, true, none⟩ :=
      Reach.step _ _ h2 (Step.quiet _ _ (StepQ.sup _))
    have h4 : Reach cfg0 ⟨cfg0, .sleeping 0, [⟨cfg0, .signaled⟩], false, true, none⟩ :=
      Reach.step _ _ h3 (Step.quiet _ _ (StepQ.sup _))
    have h5 : Reach cfg0 ⟨cfg0, .run, [⟨cfg0, .signaled⟩], false, true, none⟩ :=
      Reach.step _ _ h4 (Step.quiet _ _ (StepQ.sup _))
    exact Reach.step _ _ h5 (Step.quiet _ _ (StepQ.sup _))
  · decide

/-- A reachable state witnessing a respawn after the termination signal. -/
def sRespawn : MState :=
  ⟨cfg0, .waiting 1, [⟨cfg0, .exited 143⟩, ⟨cfg0, .running⟩], false, true, none⟩

/-- C4.  On a termination signal the trap does cancel the watcher and kill
the managed child — but the handler contains no `exit`, so after `wait`
returns the loop resumes, sleeps 2 and spawns a fresh child.  The claim that
no new managed process is ever spawned after the signal is violated by this
reachable state: the signal was handled (watcher dead), the killed child
exited with 143, and a second child was spawned afterwards and is running. -/
theorem c4_code_bug :
    Reach cfg0 sRespawn ∧ sRespawn.sigSeen = true ∧
    sRespawn.watcherAlive = false ∧ spawnCount sRespawn = 2 ∧
    sRespawn.children[1]? = some ⟨cfg0, .running⟩ := by
  refine ⟨?_, rfl, rfl, rfl, rfl⟩
  have h1 : Reach cfg0 ⟨cfg0, .waiting 0, [⟨cfg0, .running⟩], true, false, none⟩ :=
    Reach.step _ _ Reach.base (Step.quiet _ _ (StepQ.sup _))
  have h2 : Reach cfg0 ⟨cfg0, .sleeping 2, [⟨cfg0, .signaled⟩], false, true, none⟩ :=
    Reach.step _ _ h1 (Step.signal _ 0 ⟨cfg0, .running⟩ rfl rfl)
  have h3 : Reach cfg0 ⟨cfg0, .sleeping 2, [⟨cfg0, .exited 143⟩], false, true, none⟩ :=
    Reach.step _ _ h2 (Step.quiet _ _ (StepQ.die _ 0 ⟨cfg0, .signaled⟩ 143 rfl rfl))
  have h4 : Reach cfg0 ⟨cfg0, .sleeping 1, [⟨cfg0, .exited 143⟩], false, true, none⟩ :=
    Reach.step _ _ h3 (Step.quiet _ _ (StepQ.sup _))
  have h5 : Reach cfg0 ⟨cfg0, .sleeping 0, [⟨cfg0, .exited 143⟩], false, true, none⟩ :=
    Reach.step _ _ h4 (Step.quiet _ _ (StepQ.sup _))
  have h6 : Reach cfg0 ⟨cfg0, .run, [⟨cfg0, .exited 143⟩], false, true, none⟩ :=
    Reach.step _ _ h5 (Step.quiet _ _ (StepQ.sup _))
  exact Reach.step _ _ h6 (Step.quiet _ _ (StepQ.sup _))

/-- C6, confirmed.  From any reachable state in which the supervisor waits on
a child that has exited — whatever the exit code, and whatever caused it —
the supervisor's own control flow deterministically counts down the fixed
2-unit sleep and then, and only then, spawns a replacement; the replacement
(like every child ever spawned) carries exactly the fixed configuration. -/
theorem c6_restart (cfg : Config) (s : MState) (i : Nat) (c : Child) (code : Nat)
    (hr : Reach cfg s) (hph : s.phase = Phase.waiting i)
    (hc : s.children[i]? = some c) (hst : c.status = ChildStatus.exited code) :
    superStep s = { s with phase := .sleeping 2 } ∧
    superStep (superStep s) = { s with phase := .sleeping 1 } ∧
    superStep (superStep (superStep s)) = { s with phase := .sleeping 0 } ∧
    superStep (superStep (superStep (superStep s))) = { s with phase := .run } ∧
    superStep (superStep (superStep (superStep (superStep s)))) =
      { s with phase := .waiting s.children.length,
               children := s.children ++ [⟨cfg, ChildStatus.running⟩] } ∧
    ∀ d ∈ (superStep (superStep (superStep (superStep (superStep s))))).children,
      d.cfg = cfg := by
  have hcfg : s.cfg = cfg := (reach_cfg cfg s hr).1
  have e1 : superStep s = { s with phase := Phase.sleeping 2 } := by
    simp [superStep, hph, hc, hst]
  have e2 : superStep (superStep s) = { s with phase := Phase.sleeping 1 } := by
    rw [e1]; rfl
  have e3 : superStep (superStep (superStep s)) = { s with phase := Phase.sleeping 0 } := by
    rw [e2]; rfl
  have e4 : superStep (superStep (superStep (superStep s))) = { s with phase := Phase.run } := by
    rw [e3]; rfl
  have e5 : superStep (superStep (superStep (superStep (superStep s)))) =
      { s with phase := .waiting s.children.length,
               children := s.children ++ [⟨cfg, ChildStatus.running⟩] } := by
    rw [e4]
    simp [superStep, hcfg]
  refine ⟨e1, e2, e3, e4, e5, ?_⟩
  intro d hd
  rw [e5] at hd
  simp only at hd
  rcases List.mem_append.mp hd with hold | hnew
  · exact (reach_cfg cfg s hr).2 d hold
  · rw [List.mem_singleton.mp hnew]

/-- A reachable state waiting on a child that crashed with status 17. -/
def sExited : MState := ⟨cfg0, .waiting 0, [⟨cfg0, .exited 17⟩], true, false, none⟩

theorem reach_sExited : Reach cfg0 sExited := by
  have h1 : Reach cfg0 ⟨cfg0, .waiting 0, [⟨cfg0, .running⟩], true, false, none⟩ :=
    Reach.step _ _ Reach.base (Step.quiet _ _ (StepQ.sup _))
  exact Reach.step _ _ h1 (Step.quiet _ _ (StepQ.die _ 0 ⟨cfg0, .running⟩ 17 rfl rfl))

/-- C6, witness: a spontaneous nonzero-status crash, followed by the 2-unit
delay and a spawn of an identically configured replacement. -/
theorem c6_restart_witness :
    Reach cfg0 sExited ∧
    superStep (superStep (superStep (superStep (superStep sExited)))) =
      { sExited with phase := .waiting 1,
                     children := sExited.children ++ [⟨cfg0, ChildStatus.running⟩] } := by
  have h := reach_sExited
  have hc6 := c6_restart cfg0 sExited 0 ⟨cfg0, ChildStatus.exited 17⟩ 17 h rfl rfl rfl
  exact ⟨h, by rw [hc6.2.2.2.2.1]; rfl⟩

/-! ### The startup sequence and the supervisor's exit behavior -/

/-- Environment of the startup sequence (lines 49-121): whether the cd into
the workspace succeeds, whether bun ends up available (preinstalled or
installed by lines 60-71), whether package.json exists at the i-th poll of
the bounded wait, and the filesystem at the time of the hash write. -/
structure StartupEnv where
  cdOk : Bool
  bunOk : Bool
  pkgPoll : Nat → Bool
  fs : FS

/-- Outcome of the startup sequence: a fatal exit with a code, or the
supervisor reaching its loops with the store as written. -/
inductive StartupOutcome
  | fatal (code : Nat)
  | started (store : Option String)
deriving DecidableEq

/-- The bounded wait of lines 100-107 succeeds iff package.json shows up at
one of the 30 polls. -/
def pkgFound (p : Nat → Bool) : Bool := (List.range 30).any (fun i => p (i + 1))

/-- The delays between polls (line 106, `sleep 2`): a constant schedule of 30
entries of 2 units — a fixed bound with fixed delay, not a backoff. -/
def pollDelays : List Nat := List.replicate 30 2

/-- The startup sequence: cd (line 51, exit 1 on failure); ensure bun (lines
60-84, exit 1 on failure); bounded wait for package.json (lines 99-113, exit
1 when it never appears); then install and write the store (lines 115-121,
never fatal). -/
def startup (env : StartupEnv) (prev : Option String) (installOk : Bool) :
    StartupOutcome :=
  if env.cdOk = false then .fatal 1
  else if env.bunOk = false then .fatal 1
  else if pkgFound env.pkgPoll = false then .fatal 1
  else .started (startupStore env.fs prev installOk)

theorem startup_eq (env : StartupEnv) (prev : Option String) (ok : Bool) :
    startup env prev ok =
      if env.cdOk = false ∨ env.bunOk = false ∨ pkgFound env.pkgPoll = false
      then .fatal 1 else .started (startupStore env.fs prev ok) := by
  unfold startup
  by_cases h1 : env.cdOk = false
  · rw [if_pos h1, if_pos (Or.inl h1)]
  · rw [if_neg h1]
    by_cases h2 : env.bunOk = false
    · rw [if_pos h2, if_pos (Or.inr (Or.inl h2))]
    · rw [if_neg h2]
      by_cases h3 : pkgFound env.pkgPoll = false
      · rw [if_pos h3, if_pos (Or.inr (Or.inr h3))]
      · rw [if_neg h3, if_neg (by tauto)]

/-- C9, amended.  The startup sequence exits fatally — always with code 1 —
exactly when the cd fails, bun cannot be made available, or package.json
never appears within the 30 polls; the polls are spaced by a constant 2-unit
delay (no backoff).  Once past startup the supervisor never exits at all: the
signal handler has no `exit`, so there is no exit-0 graceful-shutdown path —
termination comes only from outside. -/
theorem c9_amended (env : StartupEnv) (prev : Option String) (ok : Bool) :
    ((∃ code, startup env prev ok = .fatal code) ↔
      (env.cdOk = false ∨ env.bunOk = false ∨ pkgFound env.pkgPoll = false)) ∧
    (∀ code, startup env prev ok = .fatal code → code = 1) ∧
    pollDelays.length = 30 ∧
    (∀ d ∈ pollDelays, d = 2) ∧
    (∀ cfg s, Reach cfg s → s.exitedWith = none) := by
  refine ⟨?_, ?_, by simp [pollDelays], ?_, ?_⟩
  · rw [startup_eq]
    by_cases hd : env.cdOk = false ∨ env.bunOk = false ∨ pkgFound env.pkgPoll = false
    · rw [if_pos hd]
      exact ⟨fun _ => hd, fun _ => ⟨1, rfl⟩⟩
    · rw [if_neg hd]
      constructor
      · rintro ⟨code, hcode⟩
        exact StartupOutcome.noConfusion hcode
      · intro h
        exact absurd h hd
  · rw [startup_eq]
    by_cases hd : env.cdOk = false ∨ env.bunOk = false ∨ pkgFound env.pkgPoll = false
    · rw [if_pos hd]
      intro code hcode
      injection hcode with h
      omega
    · rw [if_neg hd]
      intro code hcode
      exact StartupOutcome.noConfusion hcode
  · intro d hd
    simpa [pollDelays] using (List.eq_of_mem_replicate hd)
  · exact fun cfg s h => reach_exitedWith cfg s h

/-- Startup environment whose cd fails. -/
def env0 : StartupEnv := ⟨false, true, fun _ => true, fsAllAbsent⟩

/-- C9, witness: the failing-cd environment exits fatally with 1, and the
initial supervisor state has no recorded exit. -/
theorem c9_amended_witness :
    startup env0 none true = StartupOutcome.fatal 1 ∧ (1 : Nat) = 1 ∧
    Reach cfg0 (init cfg0) ∧ (init cfg0).exitedWith = none := by
  refine ⟨rfl, ?_, Reach.base, ?_⟩
  · exact (c9_amended env0 none true).2.1 1 rfl
  · exact (c9_amended env0 none true).2.2.2.2 cfg0 (init cfg0) Reach.base

/-- A reachable state three spawns deep, after the termination signal. -/
def sPostSignal : MState :=
  ⟨cfg0, .waiting 2, [⟨cfg0, .signaled⟩, ⟨cfg0, .exited 0⟩, ⟨cfg0, .running⟩],
   false, true, none⟩

/-- C9, counterexample.  The claim's graceful-shutdown clause — the process
"runs until externally terminated, exiting 0 on graceful shutdown" — fails on
the code: after the termination signal is handled the supervisor has still
recorded no exit, and it keeps running its loop, having spawned two further
children since the signal (one of which even exited cleanly with 0 and was
replaced).  There is no path on which the supervisor exits 0. -/
theorem c9_counterexample :
    Reach cfg0 sPostSignal ∧ sPostSignal.sigSeen = true ∧
    sPostSignal.exitedWith = none ∧ spawnCount sPostSignal = 3 := by
  refine ⟨?_, rfl, rfl, rfl⟩
  have h1 : Reach cfg0 ⟨cfg0, .waiting 0, [⟨cfg0, .running⟩], true, false, none⟩ :=
    Reach.step _ _ Reach.base (Step.quiet _ _ (StepQ.sup _))
  have h2 : Reach cfg0 ⟨cfg0, .sleeping 2, [⟨cfg0, .signaled⟩], false, true, none⟩ :=
    Reach.step _ _ h1 (Step.signal _ 0 ⟨cfg0, .running⟩ rfl rfl)
  have h3 : Reach cfg0 ⟨cfg0, .sleeping 1, [⟨cfg0, .signaled⟩], false, true, none⟩ :=
    Reach.step _ _ h2 (Step.quiet _ _ (StepQ.sup _))
  have h4 : Reach cfg0 ⟨cfg0, .sleeping 0, [⟨cfg0, .signaled⟩], false, true, none⟩ :=
    Reach.step _ _ h3 (Step.quiet _ _ (StepQ.sup _))
  have h5 : Reach cfg0 ⟨cfg0, .run, [⟨cfg0, .signaled⟩], false, true, none⟩ :=
    Reach.step _ _ h4 (Step.quiet _ _ (StepQ.sup _))
  have h6 : Reach cfg0 ⟨cfg0, .waiting 1, [⟨cfg0, .signaled⟩, ⟨cfg0, .running⟩],
      false, true, none⟩ :=
    Reach.step _ _ h5 (Step.quiet _ _ (StepQ.sup _))
  have h7 : Reach cfg0 ⟨cfg0, .waiting 1, [⟨cfg0, .signaled⟩, ⟨cfg0, .exited 0⟩],
      false, true, none⟩ :=
    Reach.step _ _ h6 (Step.quiet _ _ (StepQ.die _ 1 ⟨cfg0, .running⟩ 0 rfl rfl))
  have h8 : Reach cfg0 ⟨cfg0, .sleeping 2, [⟨cfg0, .signaled⟩, ⟨cfg0, .exited 0⟩],
      false, true, none⟩ :=
    Reach.step _ _ h7 (Step.quiet _ _ (StepQ.sup _))
  have h9 : Reach cfg0 ⟨cfg0, .sleeping 1, [⟨cfg0, .signaled⟩, ⟨cfg0, .exited 0⟩],
      false, true, none⟩ :=
    Reach.step _ _ h8 (Step.quiet _ _ (StepQ.sup _))
  have h10 : Reach cfg0 ⟨cfg0, .sleeping 0, [⟨cfg0, .signaled⟩, ⟨cfg0, .exited 0⟩],
      false, true, none⟩ :=
    Reach.step _ _ h9 (Step.quiet _ _ (StepQ.sup _))
  have h11 : Reach cfg0 ⟨cfg0, .run, [⟨cfg0, .signaled⟩, ⟨cfg0, .exited 0⟩],
      false, true, none⟩ :=
    Reach.step _ _ h10 (Step.quiet _ _ (StepQ.sup _))
  exact Reach.step _ _ h11 (Step.quiet _ _ (StepQ.sup _))

/-! ### The managed server's listen port (index.ts, line 8) -/

/-- The whitespace characters stripped by JavaScript parseInt. -/
def jsWs (c : Char) : Bool := c == ' ' || c == '\t' || c == '\n' || c == '\r'

/-- Decimal value of a digit list. -/
def digitsVal (ds : List Char) : Nat :=
  ds.foldl (fun a c => a * 10 + (c.toNat - 48)) 0

/-- JavaScript `parseInt(s, 10)`: skip leading whitespace, take an optional
sign, then the longest prefix of decimal digits; NaN (here: none) when that
prefix is empty. -/
def parseIntJS (s : String) : Option Int :=
  match s.data.dropWhile jsWs with
  | '-' :: t =>
    if (t.takeWhile Char.isDigit).isEmpty then none
    else some (-(digitsVal (t.takeWhile Char.isDigit) : Int))
  | '+' :: t =>
    if (t.takeWhile Char.isDigit).isEmpty then none
    else some ((digitsVal (t.takeWhile Char.isDigit) : Int))
  | t =>
    if (t.takeWhile Char.isDigit).isEmpty then none
    else some ((digitsVal (t.takeWhile Char.isDigit) : Int))

/-- `const port = parseInt(process.env.PORT || '8080', 10)`: the or-else
falls back to the literal 8080 exactly when PORT is undefined or the empty
string (the only falsy string); any other value is handed to parseInt. -/
def port (envPORT : Option String) : Option Int :=
  match envPORT with
  | none => parseIntJS "8080"
  | some s => if s = "" then parseIntJS "8080" else parseIntJS s

/-- C10, confirmed.  The 8080 default applies exactly when PORT is unset or
empty; every nonempty PORT value is parsed as a decimal integer, so a
non-numeric PORT gives NaN (none) — not a fallback to 8080. -/
theorem c10_port (s : String) (hne : s ≠ "") :
    port none = some 8080 ∧
    port (some "") = some 8080 ∧
    port (some s) = parseIntJS s ∧
    port (some "abc") = none ∧
    port (some "3000") = some 3000 := by
  refine ⟨by decide, by decide, ?_, by decide, by decide⟩
  simp only [port]
  rw [if_neg hne]

/-- C10, witness at the nonempty string x7. -/
theorem c10_port_witness :
    ("x7" : String) ≠ "" ∧ port (some "x7") = parseIntJS "x7" :=
  ⟨by decide, (c10_port "x7" (by decide)).2.2.1⟩

end DevStartup
